import Mathlib

/-!
Shallow embedding of the persistence orchestration layer of DharmaDB
(src/src/persistence.rs): the sparse-index bootstrap, point lookup,
write-ahead-log append and flush operations, together with the
collaborator contracts (write-ahead log, sorted table reader and writer,
sparse index) that the orchestrator calls into.  Collaborator behaviour
that is not part of the given source is modelled from the specification
and marked as such on each definition.
-/

namespace DharmaDB

/-- Error kinds surfaced by persistence.rs, plus one representative kind for
the opaque collaborator errors (log creation) that the orchestrator merely
propagates. -/
inductive Errors where
  | DB_INDEX_INITIALIZATION_FAILED
  | DB_INDEX_UPDATE_FAILED
  | DB_WRITE_FAILED
  | SSTABLE_CREATION_FAILED
  | SSTABLE_READ_FAILED
  | WRITE_AHEAD_LOG_CREATION_FAILED
  deriving DecidableEq

/-- Result of an operation that may also abort by a Rust panic, such as the
remainder operation with divisor zero in populate_index_from_path. -/
inductive Outcome (α : Type) where
  | fault
  | err (e : Errors)
  | ok (a : α)
  deriving DecidableEq

/-- TableAddress from sparse_index.rs as used by persistence.rs: a pointer
(table file identifier, byte offset); table file paths are modelled as
abstract numeric identifiers. -/
structure TableAddress where
  path : Nat
  offset : Nat
  deriving DecidableEq

/-- Modelled from the spec: the sparse index (sparse_index.rs is not part of
the given source) maps keys to table addresses, holding at most one entry per
distinct key value; represented as an association list without duplicate keys. -/
abbrev SparseIndex (K : Type) := List (K × TableAddress)

/-- Modelled from the spec: SparseIndex::update inserts a mapping, and the most
recently inserted mapping for a key wins, overwriting any prior one. -/
def SparseIndex.update {K : Type} [DecidableEq K] :
    SparseIndex K → K → TableAddress → SparseIndex K
  | [], key, addr => [(key, addr)]
  | (k, a) :: rest, key, addr =>
    if k = key then (key, addr) :: rest
    else (k, a) :: SparseIndex.update rest key addr

/-- Lookup of the mapping currently held for a key, used to state which
address the index associates to a key. -/
def SparseIndex.lookup {K : Type} [DecidableEq K] :
    SparseIndex K → K → Option TableAddress
  | [], _ => none
  | (k, a) :: rest, key => if k = key then some a else SparseIndex.lookup rest key

/-- Modelled from the spec: floor lookup, the greatest indexed key at or below
the target together with its address, or none when no indexed key is at or
below the target. -/
def SparseIndex.floorEntry {K : Type} [LinearOrder K] :
    SparseIndex K → K → Option (K × TableAddress)
  | [], _ => none
  | (k, a) :: rest, key =>
    match SparseIndex.floorEntry rest key with
    | none => if k ≤ key then some (k, a) else none
    | some (k2, a2) =>
      if k ≤ key then (if k2 < k then some (k, a) else some (k2, a2))
      else some (k2, a2)

/-- Modelled from the spec: SparseIndex::get_nearest_address returns the
address of the floor entry for the target key. -/
def SparseIndex.getNearestAddress {K : Type} [LinearOrder K]
    (idx : SparseIndex K) (key : K) : Option TableAddress :=
  (SparseIndex.floorEntry idx key).map Prod.snd

/-- A decoded table file record together with the byte offset the sorted
table reader reports for it. -/
structure TableRecord (K V : Type) where
  key : K
  value : V
  offset : Nat
  deriving DecidableEq

/-- Modelled from the spec: the outcomes of the external collaborators that
persistence.rs calls into.  logOpen is the result of WriteAheadLog::new,
listPaths of SSTableReader::get_valid_table_paths, openResult of
SSTableReader::from per file, seek of seek_closest (mapping a byte offset to
the record position scanning starts at, or failing), logAppendOk of
WriteAheadLog::append, and write of write_sstable (returning the new file
identifier and its decoded record sequence with offsets). -/
structure Env (K V : Type) where
  logOpen : Except Errors Unit
  listPaths : Except Errors (List Nat)
  openResult : Nat → Except Errors Unit
  records : Nat → List (TableRecord K V)
  seek : Nat → Nat → Option Nat
  logAppendOk : Bool
  write : List (K × V) → Except Errors (Nat × List (TableRecord K V))

/-- State owned by the orchestrator: the sparse index, the write-ahead-log
contents, and the table files on disk. -/
structure Persistence (K V : Type) where
  index : SparseIndex K
  log : List (K × V)
  tables : Nat → List (TableRecord K V)

/-- Loop of Persistence::populate_index_from_path: every record is examined
and the counter advances on each; a record is decoded and inserted exactly
when the counter is divisible by the sampling rate.  A sampling rate of zero
makes the Rust remainder operation panic on the first record. -/
def populateLoop {K V : Type} [DecidableEq K] (path rate : Nat) :
    List (TableRecord K V) → Nat → SparseIndex K → Outcome (SparseIndex K)
  | [], _, idx => .ok idx
  | r :: rest, counter, idx =>
    if rate = 0 then .fault
    else
      populateLoop path rate rest (counter + 1)
        (if counter % rate = 0 then SparseIndex.update idx r.key ⟨path, r.offset⟩
         else idx)

/-- Persistence::populate_index_from_path: open a reader on the file (any
open failure becomes SSTABLE_READ_FAILED) and run the sampling loop over its
records starting from counter zero. -/
def populate_index_from_path {K V : Type} [DecidableEq K] (env : Env K V)
    (tables : Nat → List (TableRecord K V)) (rate path : Nat)
    (idx : SparseIndex K) : Outcome (SparseIndex K) :=
  match env.openResult path with
  | .error _ => .err .SSTABLE_READ_FAILED
  | .ok _ => populateLoop path rate (tables path) 0 idx

/-- Loop of Persistence::create over the listed table file paths: each file is
scanned in turn into the accumulating index, and any single scan failure
aborts with DB_INDEX_INITIALIZATION_FAILED. -/
def createLoop {K V : Type} [DecidableEq K] (env : Env K V) (rate : Nat) :
    List Nat → SparseIndex K → Outcome (SparseIndex K)
  | [], idx => .ok idx
  | p :: rest, idx =>
    match populate_index_from_path env env.records rate p idx with
    | .fault => .fault
    | .err _ => .err .DB_INDEX_INITIALIZATION_FAILED
    | .ok idx2 => createLoop env rate rest idx2

/-- Persistence::create: open the write-ahead log first and on failure return
the log error unchanged; otherwise list the table file paths (propagating a
listing error) and populate a fresh index from every file. -/
def create {K V : Type} [DecidableEq K] (env : Env K V) (rate : Nat) :
    Outcome (Persistence K V) :=
  match env.logOpen with
  | .error e => .err e
  | .ok _ =>
    match env.listPaths with
    | .error e => .err e
    | .ok paths =>
      match createLoop env rate paths ([] : SparseIndex K) with
      | .fault => .fault
      | .err e => .err e
      | .ok idx => .ok ⟨idx, [], env.records⟩

/-- Scan loop of Persistence::get: advance past records with smaller keys,
return the value on an exact key match, and stop with absence on a greater
key or at end of file. -/
def scanRecords {K V : Type} [LinearOrder K] (key : K) :
    List (TableRecord K V) → Option V
  | [] => none
  | r :: rest =>
    if r.key < key then scanRecords key rest
    else if r.key = key then some r.value
    else none

/-- Persistence::get: floor lookup in the sparse index (absence when no floor
address exists); then open the addressed table file, propagating an open
error; then seek to the stored byte offset, a seek failure degrading to
absence; then scan forward from the seek position. -/
def get {K V : Type} [LinearOrder K] (env : Env K V) (p : Persistence K V)
    (key : K) : Except Errors (Option V) :=
  match SparseIndex.getNearestAddress p.index key with
  | none => .ok none
  | some addr =>
    match env.openResult addr.path with
    | .error e => .error e
    | .ok _ =>
      match env.seek addr.path addr.offset with
      | none => .ok none
      | some i => .ok (scanRecords key ((p.tables addr.path).drop i))

/-- Persistence::insert: append to the write-ahead log only; a log append
failure is reported as DB_WRITE_FAILED and leaves the state unchanged. -/
def insert {K V : Type} (env : Env K V) (p : Persistence K V) (key : K)
    (value : V) : Except Errors Unit × Persistence K V :=
  if env.logAppendOk then (.ok (), { p with log := p.log ++ [(key, value)] })
  else (.error .DB_WRITE_FAILED, p)

/-- Persistence::flush: list the existing table paths (propagating a listing
error), write the batch as a new table file (any writer failure becomes
SSTABLE_CREATION_FAILED with no state change), then populate the index from
the newly written file only (any population failure becomes
DB_INDEX_UPDATE_FAILED). -/
def flush {K V : Type} [DecidableEq K] (env : Env K V) (rate : Nat)
    (p : Persistence K V) (values : List (K × V)) :
    Outcome Unit × Persistence K V :=
  match env.listPaths with
  | .error e => (.err e, p)
  | .ok _ =>
    match env.write values with
    | .error _ => (.err .SSTABLE_CREATION_FAILED, p)
    | .ok (n, rs) =>
      let tables2 : Nat → List (TableRecord K V) :=
        fun m => if m = n then rs else p.tables m
      match populate_index_from_path env tables2 rate n p.index with
      | .fault => (.fault, { p with tables := tables2 })
      | .err _ => (.err .DB_INDEX_UPDATE_FAILED, { p with tables := tables2 })
      | .ok idx2 => (.ok (), { index := idx2, log := p.log, tables := tables2 })

/-- Modelled from the spec: the scan step as section 4.2 words it, where the
first record whose key is at or above the target decides the result, an exact
match yielding the value and anything else absence. -/
def scanSpec {K V : Type} [LinearOrder K] (key : K)
    (rs : List (TableRecord K V)) : Option V :=
  match rs.find? (fun r => decide (key ≤ r.key)) with
  | none => none
  | some r => if r.key = key then some r.value else none

/-- Modelled from the spec: inserting, in file order, exactly the records at
positions divisible by the sampling rate into an index. -/
def sampledInsert {K V : Type} [DecidableEq K] (rate path : Nat)
    (rs : List (TableRecord K V)) (idx : SparseIndex K) : SparseIndex K :=
  ((rs.enum.filter fun q => decide (q.1 % rate = 0)).map Prod.snd).foldl
    (fun acc r => SparseIndex.update acc r.key ⟨path, r.offset⟩) idx

/-! Helper lemmas shared by the claim theorems. -/

/-- Updating an index changes exactly the mapping of the updated key. -/
theorem SparseIndex.lookup_update {K : Type} [DecidableEq K]
    (idx : SparseIndex K) (key : K) (addr : TableAddress) (k2 : K) :
    SparseIndex.lookup (SparseIndex.update idx key addr) k2 =
      if k2 = key then some addr else SparseIndex.lookup idx k2 := by
  induction idx with
  | nil =>
    by_cases h : k2 = key
    · simp [SparseIndex.update, SparseIndex.lookup, h]
    · simp [SparseIndex.update, SparseIndex.lookup, h, Ne.symm h]
  | cons head rest ih =>
    obtain ⟨k, a⟩ := head
    by_cases h1 : k = key
    · subst h1
      by_cases h2 : k2 = k
      · subst h2; simp [SparseIndex.update, SparseIndex.lookup]
      · simp [SparseIndex.update, SparseIndex.lookup, h2, Ne.symm h2]
    · by_cases h3 : k = k2
      · subst h3
        simp [SparseIndex.update, SparseIndex.lookup, h1, Ne.symm h1]
      · simp [SparseIndex.update, SparseIndex.lookup, h1, h3, ih]

/-- The source scan loop computes the specification's first-at-or-above rule. -/
theorem scanRecords_eq_scanSpec {K V : Type} [LinearOrder K] (key : K)
    (rs : List (TableRecord K V)) : scanRecords key rs = scanSpec key rs := by
  induction rs with
  | nil => rfl
  | cons r rest ih =>
    by_cases h : r.key < key
    · have hp : (decide (key ≤ r.key)) = false := by
        simp [not_le.mpr h]
      simp [scanRecords, scanSpec, h, List.find?, hp] at *
      exact ih
    · have hp : (decide (key ≤ r.key)) = true := by
        simp [le_of_not_lt h]
      simp [scanRecords, scanSpec, h, List.find?, hp]

/-- Scanning a list of records none of which carries the target key yields
absence. -/
theorem scanRecords_eq_none {K V : Type} [LinearOrder K] (key : K)
    (rs : List (TableRecord K V)) (h : ∀ r ∈ rs, r.key ≠ key) :
    scanRecords key rs = none := by
  induction rs with
  | nil => rfl
  | cons r rest ih =>
    have hk := h r (List.mem_cons_self r rest)
    by_cases hlt : r.key < key
    · simpa [scanRecords, hlt] using
        ih (fun r2 hr2 => h r2 (List.mem_cons_of_mem _ hr2))
    · simp [scanRecords, hlt, hk]

/-- With a positive sampling rate the populate loop succeeds and inserts, in
order, exactly the records whose position counter is divisible by the rate. -/
theorem populateLoop_eq {K V : Type} [DecidableEq K] (path rate : Nat)
    (h : 1 ≤ rate) (rs : List (TableRecord K V)) (c : Nat)
    (idx : SparseIndex K) :
    populateLoop path rate rs c idx =
      .ok ((((rs.enumFrom c).filter fun q => decide (q.1 % rate = 0)).map
          Prod.snd).foldl
        (fun acc r => SparseIndex.update acc r.key ⟨path, r.offset⟩) idx) := by
  induction rs generalizing c idx with
  | nil => rfl
  | cons r rest ih =>
    have hz : rate ≠ 0 := by omega
    by_cases hc : c % rate = 0
    · simp [populateLoop, hz, hc, List.enumFrom, ih]
    · simp [populateLoop, hz, hc, List.enumFrom, ih]

/-- With a positive sampling rate, scanning an openable file computes the
sampled insertions. -/
theorem populate_eq_sampledInsert {K V : Type} [DecidableEq K]
    (env : Env K V) (tables : Nat → List (TableRecord K V)) (rate path : Nat)
    (idx : SparseIndex K) (h : 1 ≤ rate) (ho : env.openResult path = .ok ()) :
    populate_index_from_path env tables rate path idx =
      .ok (sampledInsert rate path (tables path) idx) := by
  simp [populate_index_from_path, ho, sampledInsert, List.enum,
    populateLoop_eq path rate h (tables path) 0 idx]

/-- Every insertion the populate loop performs points into the file being
scanned, so a key already mapped into that file stays mapped into it. -/
theorem populateLoop_preserves {K V : Type} [DecidableEq K] (path rate : Nat)
    (k : K) (rs : List (TableRecord K V)) (c : Nat)
    (idx idx2 : SparseIndex K)
    (h : populateLoop path rate rs c idx = .ok idx2)
    (hinv : ∃ off, SparseIndex.lookup idx k = some ⟨path, off⟩) :
    ∃ off, SparseIndex.lookup idx2 k = some ⟨path, off⟩ := by
  induction rs generalizing c idx with
  | nil =>
    simp [populateLoop] at h
    exact h ▸ hinv
  | cons r rest ih =>
    by_cases hz : rate = 0
    · simp [populateLoop, hz] at h
    · simp only [populateLoop, hz, if_false] at h
      by_cases hc : c % rate = 0
      · rw [if_pos hc] at h
        refine ih (c + 1) _ h ?_
        obtain ⟨off, hoff⟩ := hinv
        by_cases hk : k = r.key
        · exact ⟨r.offset, by simp [SparseIndex.lookup_update, hk]⟩
        · exact ⟨off, by simp [SparseIndex.lookup_update, hk, hoff]⟩
      · rw [if_neg hc] at h
        exact ih (c + 1) _ h hinv

/-- With a positive sampling rate the populate loop cannot panic. -/
theorem populateLoop_ne_fault {K V : Type} [DecidableEq K] (path rate : Nat)
    (h : 1 ≤ rate) (rs : List (TableRecord K V)) (c : Nat)
    (idx : SparseIndex K) : populateLoop path rate rs c idx ≠ .fault := by
  rw [populateLoop_eq path rate h rs c idx]
  intro hcon
  exact Outcome.noConfusion hcon

/-- With a positive sampling rate populate_index_from_path cannot panic. -/
theorem populate_ne_fault {K V : Type} [DecidableEq K] (env : Env K V)
    (tables : Nat → List (TableRecord K V)) (rate path : Nat)
    (idx : SparseIndex K) (h : 1 ≤ rate) :
    populate_index_from_path env tables rate path idx ≠ .fault := by
  unfold populate_index_from_path
  match hres : env.openResult path with
  | .error e => intro hcon; exact Outcome.noConfusion hcon
  | .ok u => exact populateLoop_ne_fault path rate h (tables path) 0 idx

/-- With a positive sampling rate the bootstrap loop cannot panic. -/
theorem createLoop_ne_fault {K V : Type} [DecidableEq K] (env : Env K V)
    (rate : Nat) (h : 1 ≤ rate) (ps : List Nat) (idx : SparseIndex K) :
    createLoop env rate ps idx ≠ .fault := by
  induction ps generalizing idx with
  | nil => intro hcon; exact Outcome.noConfusion hcon
  | cons q rest ih =>
    unfold createLoop
    match hres : populate_index_from_path env env.records rate q idx with
    | .fault => exact absurd hres (populate_ne_fault env env.records rate q idx h)
    | .err e => intro hcon; exact Outcome.noConfusion hcon
    | .ok idx2 => exact ih idx2

/-- If some listed file cannot be opened for its scan, the bootstrap loop
reports an index-initialization failure (positive sampling rate). -/
theorem createLoop_err_of_scan_failure {K V : Type} [DecidableEq K]
    (env : Env K V) (rate : Nat) (h : 1 ≤ rate) (ps : List Nat)
    (idx : SparseIndex K)
    (hp : ∃ q ∈ ps, ∃ e, env.openResult q = .error e) :
    createLoop env rate ps idx = .err .DB_INDEX_INITIALIZATION_FAILED := by
  induction ps generalizing idx with
  | nil => simp at hp
  | cons q rest ih =>
    unfold createLoop
    match hres : env.openResult q with
    | .error e =>
      simp [populate_index_from_path, hres]
    | .ok u =>
      have hq : populate_index_from_path env env.records rate q idx =
          .ok (sampledInsert rate q (env.records q) idx) :=
        populate_eq_sampledInsert env env.records rate q idx h (by cases u; exact hres)
      rw [hq]
      obtain ⟨q2, hq2, e2, he2⟩ := hp
      rcases List.mem_cons.mp hq2 with hqq | hqrest
      · subst hqq; rw [hres] at he2; exact absurd he2 (by simp)
      · exact ih _ ⟨q2, hqrest, e2, he2⟩

/-! Concrete instances used to witness the claim theorems. -/

/-- A small concrete environment: one table file (id 0) holding keys 1 and 3. -/
def envA : Env Nat Nat where
  logOpen := .ok ()
  listPaths := .ok [0]
  openResult := fun _ => .ok ()
  records := fun n => if n = 0 then [⟨1, 10, 0⟩, ⟨3, 30, 4⟩] else []
  seek := fun _ _ => some 0
  logAppendOk := true
  write := fun vs => .ok (1, vs.map fun q => ⟨q.1, q.2, 0⟩)

/-- A concrete orchestrator state over envA with key 1 sampled in the index. -/
def pA : Persistence Nat Nat where
  index := [(1, ⟨0, 0⟩)]
  log := []
  tables := envA.records

/-- envA with a reader that fails to open every table file. -/
def envB : Env Nat Nat :=
  { envA with openResult := fun _ => .error .SSTABLE_READ_FAILED }

/-- envA with a write-ahead log whose append fails. -/
def envF : Env Nat Nat := { envA with logAppendOk := false }

/-- envA with a write-ahead log that fails to open. -/
def envL : Env Nat Nat :=
  { envA with logOpen := .error .WRITE_AHEAD_LOG_CREATION_FAILED }

/-- envL with different table files, listing outcome and reader behaviour. -/
def envL2 : Env Nat Nat :=
  { envL with
      listPaths := .error .SSTABLE_READ_FAILED
      records := fun _ => [⟨9, 9, 9⟩]
      openResult := fun _ => .error .SSTABLE_READ_FAILED }

/-- envA with two listed table files of which the second cannot be opened. -/
def envE : Env Nat Nat :=
  { envA with
      listPaths := .ok [0, 1]
      openResult := fun n => if n = 1 then .error .SSTABLE_READ_FAILED else .ok () }

/-- envA with a table writer that fails. -/
def envG : Env Nat Nat :=
  { envA with write := fun _ => .error .SSTABLE_CREATION_FAILED }

/-! Claim theorems. -/

/-- C1: Persistence::get follows the floor-then-scan algorithm.  When the
sparse index yields no floor address, get returns absence immediately.  When
it yields a floor address and the addressed file opens, a seek failure yields
absence, and otherwise get returns the result of the forward scan from the
seek position, which is decided by the first record whose key is at or above
the target: its value on an exact match, absence on a greater key, and
absence when end of file is reached without such a record. -/
theorem get_follows_floor_then_scan {K V : Type} [LinearOrder K]
    (env : Env K V) (p : Persistence K V) (key : K) :
    (SparseIndex.getNearestAddress p.index key = none →
        get env p key = .ok none) ∧
    (∀ addr, SparseIndex.getNearestAddress p.index key = some addr →
      env.openResult addr.path = .ok () →
      ((env.seek addr.path addr.offset = none → get env p key = .ok none) ∧
       (∀ i, env.seek addr.path addr.offset = some i →
         get env p key = .ok (scanSpec key ((p.tables addr.path).drop i))))) := by
  refine ⟨fun h => by simp [get, h], fun addr ha ho => ⟨?_, ?_⟩⟩
  · intro hs
    simp [get, ha, ho, hs]
  · intro i hi
    simp [get, ha, ho, hi, scanRecords_eq_scanSpec]

/-- Witness for C1 at a concrete state: the floor address for key 3 is the
sampled key 1 of file 0, and the scan finds key 3 with value 30. -/
theorem get_follows_floor_then_scan_w : get envA pA 3 = .ok (some 30) := by
  have h := ((get_follows_floor_then_scan envA pA 3).2 ⟨0, 0⟩ rfl rfl).2 0 rfl
  rw [h]
  rfl

/-- C2 counterexample: at a concrete state whose floor address names a table
file that cannot be opened, get propagates the open error and does not return
absence. -/
theorem get_open_failure_counterexample :
    get envB pA 3 = .error .SSTABLE_READ_FAILED ∧ get envB pA 3 ≠ .ok none := by
  constructor
  · rfl
  · intro h
    have h1 : get envB pA 3 = .error .SSTABLE_READ_FAILED := rfl
    rw [h1] at h
    exact Except.noConfusion h

/-- C2 amended: when the sparse index yields a floor address and the table
file named by that address cannot be opened for the lookup, get propagates the
reader's open error to the caller; only a seek failure after a successful open
degrades to absence. -/
theorem get_open_failure_propagates {K V : Type} [LinearOrder K]
    (env : Env K V) (p : Persistence K V) (key : K) (addr : TableAddress)
    (e : Errors) (h1 : SparseIndex.getNearestAddress p.index key = some addr)
    (h2 : env.openResult addr.path = .error e) :
    get env p key = .error e := by
  simp [get, h1, h2]

/-- Witness for the amended C2 at a concrete state. -/
theorem get_open_failure_propagates_w :
    get envB pA 3 = .error .SSTABLE_READ_FAILED :=
  get_open_failure_propagates envB pA 3 ⟨0, 0⟩ .SSTABLE_READ_FAILED rfl rfl

/-- C5: create opens the write-ahead log before any index work: when opening
the log fails, create aborts with the log error, and the result is the same
for any other environment failing the same way, whatever its table files,
path listing, reader behaviour or sampling rate — no enumeration or scanning
can influence the outcome. -/
theorem create_log_failure_aborts {K V : Type} [DecidableEq K]
    (env env2 : Env K V) (rate rate2 : Nat) (e : Errors)
    (h : env.logOpen = .error e) (h2 : env2.logOpen = .error e) :
    create env rate = .err e ∧ create env2 rate2 = create env rate := by
  constructor
  · simp [create, h]
  · simp [create, h, h2]

/-- Witness for C5 at two concrete environments that differ in everything but
the failing log. -/
theorem create_log_failure_aborts_w :
    create envL 2 = .err .WRITE_AHEAD_LOG_CREATION_FAILED ∧
      create envL2 5 = create envL 2 :=
  create_log_failure_aborts envL envL2 2 5 .WRITE_AHEAD_LOG_CREATION_FAILED
    rfl rfl

/-- C7: insert touches only the write-ahead log: the sparse index and the
table files are unchanged whether the append succeeds or fails; on success
the state gains exactly the appended entry, and on failure insert reports
DB_WRITE_FAILED and leaves the whole state untouched. -/
theorem insert_log_only {K V : Type} (env : Env K V) (p : Persistence K V)
    (key : K) (value : V) :
    ((insert env p key value).2.index = p.index ∧
     (insert env p key value).2.tables = p.tables) ∧
    (env.logAppendOk = true →
      insert env p key value =
        (.ok (), { p with log := p.log ++ [(key, value)] })) ∧
    (env.logAppendOk = false →
      insert env p key value = (.error .DB_WRITE_FAILED, p)) := by
  refine ⟨?_, ?_, ?_⟩
  · by_cases h : env.logAppendOk <;> simp [insert, h]
  · intro h; simp [insert, h]
  · intro h; simp [insert, h]

/-- Witness for C7 at concrete states, one successful append and one failing
append. -/
theorem insert_log_only_w :
    insert envA pA 5 7 = (.ok (), { pA with log := pA.log ++ [(5, 7)] }) ∧
      insert envF pA 5 7 = (.error .DB_WRITE_FAILED, pA) :=
  ⟨(insert_log_only envA pA 5 7).2.1 rfl, (insert_log_only envF pA 5 7).2.2 rfl⟩

/-- C3: when a table file is scanned to populate the index — by create over
every listed file in order and by flush over the newly written file only —
exactly the records at positions divisible by the sampling rate are decoded
and inserted, in file order, as key-to-(file, offset) mappings, records at
other positions are never inserted, and each insertion overwrites any prior
mapping for the same key. -/
theorem sampling_inserts_exactly {K V : Type} [DecidableEq K] (rate : Nat)
    (h : 1 ≤ rate) :
    (∀ (env : Env K V) (tables : Nat → List (TableRecord K V)) (path : Nat)
       (idx : SparseIndex K), env.openResult path = .ok () →
        populate_index_from_path env tables rate path idx =
          .ok (sampledInsert rate path (tables path) idx)) ∧
    (∀ (env : Env K V) (ps : List Nat) (idx : SparseIndex K),
        (∀ q ∈ ps, env.openResult q = .ok ()) →
        createLoop env rate ps idx =
          .ok (ps.foldl (fun acc q => sampledInsert rate q (env.records q) acc)
            idx)) ∧
    (∀ (env : Env K V) (p : Persistence K V) (values : List (K × V))
       (ps : List Nat) (n : Nat) (rs : List (TableRecord K V)),
        env.listPaths = .ok ps → env.write values = .ok (n, rs) →
        env.openResult n = .ok () →
        (flush env rate p values).2.index = sampledInsert rate n rs p.index) ∧
    (∀ (idx : SparseIndex K) (key : K) (addr : TableAddress) (k2 : K),
        SparseIndex.lookup (SparseIndex.update idx key addr) k2 =
          if k2 = key then some addr else SparseIndex.lookup idx k2) := by
  refine ⟨?_, ?_, ?_, ?_⟩
  · intro env tables path idx ho
    exact populate_eq_sampledInsert env tables rate path idx h ho
  · intro env ps
    induction ps with
    | nil => intro idx hall; rfl
    | cons q rest ih =>
      intro idx hall
      have hq : populate_index_from_path env env.records rate q idx =
          .ok (sampledInsert rate q (env.records q) idx) :=
        populate_eq_sampledInsert env env.records rate q idx h
          (hall q (List.mem_cons_self q rest))
      simpa [createLoop, hq] using
        ih _ (fun q2 hq2 => hall q2 (List.mem_cons_of_mem _ hq2))
  · intro env p values ps n rs hl hw ho
    have hpop : populate_index_from_path env
        (fun m => if m = n then rs else p.tables m) rate n p.index =
        .ok (sampledInsert rate n rs p.index) := by
      have := populate_eq_sampledInsert env
        (fun m => if m = n then rs else p.tables m) rate n p.index h ho
      simpa using this
    simp [flush, hl, hw, hpop]
  · intro idx key addr k2
    exact SparseIndex.lookup_update idx key addr k2

/-- Witness for C3 at a concrete file: with sampling rate 2 only the record
at position 0 of file 0 is inserted. -/
theorem sampling_inserts_exactly_w :
    populate_index_from_path envA envA.records 2 0 [] = .ok [(1, ⟨0, 0⟩)] := by
  have h := (sampling_inserts_exactly 2 (by decide)).1 envA envA.records 0 [] rfl
  rw [h]
  rfl

/-- C4: flush reports SSTABLE_CREATION_FAILED when the table writer fails and
then leaves the whole state, in particular the index, unmutated; when the
writer succeeds but populating the index from the new file fails, flush
reports DB_INDEX_UPDATE_FAILED; and flush succeeds only when the writer and
the index population from the new file both succeed. -/
theorem flush_error_reporting {K V : Type} [DecidableEq K] (env : Env K V)
    (rate : Nat) (p : Persistence K V) (values : List (K × V)) (ps : List Nat)
    (hl : env.listPaths = .ok ps) :
    (∀ e, env.write values = .error e →
        flush env rate p values = (.err .SSTABLE_CREATION_FAILED, p)) ∧
    (∀ n rs e2, env.write values = .ok (n, rs) →
        populate_index_from_path env (fun m => if m = n then rs else p.tables m)
          rate n p.index = .err e2 →
        (flush env rate p values).1 = .err .DB_INDEX_UPDATE_FAILED) ∧
    ((flush env rate p values).1 = .ok () →
        ∃ n rs, env.write values = .ok (n, rs) ∧
          ∃ idx2, populate_index_from_path env
            (fun m => if m = n then rs else p.tables m) rate n p.index =
              .ok idx2) := by
  refine ⟨?_, ?_, ?_⟩
  · intro e hw
    simp [flush, hl, hw]
  · intro n rs e2 hw hpop
    simp [flush, hl, hw, hpop]
  · intro hok
    rcases hw : env.write values with e | ⟨n, rs⟩
    · simp [flush, hl, hw] at hok
    · refine ⟨n, rs, rfl, ?_⟩
      rcases hpop : populate_index_from_path env
          (fun m => if m = n then rs else p.tables m) rate n p.index with
        _ | e2 | idx2
      · simp [flush, hl, hw, hpop] at hok
      · simp [flush, hl, hw, hpop] at hok
      · exact ⟨idx2, rfl⟩

/-- Witness for C4 at a concrete failing writer: flush reports the
table-creation failure and returns the state unchanged. -/
theorem flush_error_reporting_w :
    flush envG 1 pA [(2, 20)] = (.err .SSTABLE_CREATION_FAILED, pA) :=
  (flush_error_reporting envG 1 pA [(2, 20)] [0] rfl).1
    .SSTABLE_CREATION_FAILED rfl

/-- C6: during bootstrap with a positive sampling rate, if the scan of any
single listed table file fails, create returns DB_INDEX_INITIALIZATION_FAILED
and no orchestrator is ever constructed. -/
theorem create_scan_failure_aborts {K V : Type} [DecidableEq K]
    (env : Env K V) (rate : Nat) (ps : List Nat) (h : 1 ≤ rate)
    (hlog : env.logOpen = .ok ()) (hls : env.listPaths = .ok ps)
    (hp : ∃ q ∈ ps, ∃ e, env.openResult q = .error e) :
    create env rate = .err .DB_INDEX_INITIALIZATION_FAILED ∧
      ∀ st : Persistence K V, create env rate ≠ .ok st := by
  have hc := createLoop_err_of_scan_failure env rate h ps ([] : SparseIndex K) hp
  have h1 : create env rate = .err .DB_INDEX_INITIALIZATION_FAILED := by
    simp [create, hlog, hls, hc]
  refine ⟨h1, ?_⟩
  intro st hcon
  rw [h1] at hcon
  exact Outcome.noConfusion hcon

/-- Witness for C6 at a concrete bootstrap whose second listed file cannot be
opened. -/
theorem create_scan_failure_aborts_w :
    create envE 1 = .err .DB_INDEX_INITIALIZATION_FAILED :=
  (create_scan_failure_aborts envE 1 [0, 1] (by decide) rfl rfl
    ⟨1, by decide, .SSTABLE_READ_FAILED, rfl⟩).1

/-- C8: the result of get depends only on the sparse index and the table
files, never on the write-ahead log: two states agreeing on index and tables
give the same result for every key; and after insert of a key absent from
every table file, with no intervening flush and every table file openable,
get on that key returns absence. -/
theorem get_ignores_log {K V : Type} [LinearOrder K] :
    (∀ (env : Env K V) (p1 p2 : Persistence K V) (key : K),
        p1.index = p2.index → p1.tables = p2.tables →
        get env p1 key = get env p2 key) ∧
    (∀ (env : Env K V) (p : Persistence K V) (k : K) (v : V),
        (∀ n, env.openResult n = .ok ()) →
        (∀ n r, r ∈ p.tables n → r.key ≠ k) →
        get env (insert env p k v).2 k = .ok none) := by
  constructor
  · intro env p1 p2 key h1 h2
    simp [get, h1, h2]
  · intro env p k v hopen habs
    have hidx : (insert env p k v).2.index = p.index := by
      by_cases h : env.logAppendOk <;> simp [insert, h]
    have htab : (insert env p k v).2.tables = p.tables := by
      by_cases h : env.logAppendOk <;> simp [insert, h]
    rcases hfloor : SparseIndex.getNearestAddress p.index k with _ | addr
    · simp [get, hidx, htab, hfloor]
    · have ho := hopen addr.path
      rcases hseek : env.seek addr.path addr.offset with _ | i
      · simp [get, hidx, htab, hfloor, ho, hseek]
      · have hscan : scanRecords k ((p.tables addr.path).drop i) = none :=
          scanRecords_eq_none k _
            (fun r hr => habs addr.path r (List.drop_subset i _ hr))
        simp [get, hidx, htab, hfloor, ho, hseek, hscan]

/-- Witness for C8: inserting key 2, which no table file holds, then reading
it without a flush yields absence. -/
theorem get_ignores_log_w : get envA (insert envA pA 2 20).2 2 = .ok none := by
  refine get_ignores_log.2 envA pA 2 20 (fun n => rfl) ?_
  intro n r hr
  by_cases h : n = 0
  · subst h
    simp [pA, envA] at hr
    rcases hr with h1 | h1 <;> subst h1 <;> decide
  · simp [pA, envA, h] at hr

/-- C9: with a sampling rate of at least 1 the remainder operation in the
index-population loop has a nonzero divisor, so create and flush never fault
there; the precondition is necessary, since with sampling rate 0 populating a
nonempty table file faults on the remainder by zero. -/
theorem sampling_rate_no_fault {K V : Type} [DecidableEq K] (rate : Nat)
    (h : 1 ≤ rate) :
    (∀ env : Env K V, create env rate ≠ .fault) ∧
    (∀ (env : Env K V) (p : Persistence K V) (values : List (K × V)),
        (flush env rate p values).1 ≠ .fault) ∧
    (∃ (env : Env Nat Nat) (tables : Nat → List (TableRecord Nat Nat))
       (path : Nat) (idx : SparseIndex Nat),
        populate_index_from_path env tables 0 path idx = .fault) := by
  refine ⟨?_, ?_, ?_⟩
  · intro env hcon
    rcases hl : env.logOpen with e | u
    · simp [create, hl] at hcon
    · rcases hp : env.listPaths with e | ps
      · simp [create, hl, hp] at hcon
      · rcases hc : createLoop env rate ps ([] : SparseIndex K) with _ | e | idx
        · exact createLoop_ne_fault env rate h ps [] hc
        · simp [create, hl, hp, hc] at hcon
        · simp [create, hl, hp, hc] at hcon
  · intro env p values hcon
    rcases hl : env.listPaths with e | ps
    · simp [flush, hl] at hcon
    · rcases hw : env.write values with e | ⟨n, rs⟩
      · simp [flush, hl, hw] at hcon
      · rcases hpop : populate_index_from_path env
            (fun m => if m = n then rs else p.tables m) rate n p.index with
          _ | e2 | idx2
        · exact populate_ne_fault env _ rate n p.index h hpop
        · simp [flush, hl, hw, hpop] at hcon
        · simp [flush, hl, hw, hpop] at hcon
  · exact ⟨envA, fun _ => [⟨0, 0, 0⟩], 0, [], rfl⟩

/-- Witness for C9 at a concrete environment and rate 1. -/
theorem sampling_rate_no_fault_w : create envA 1 ≠ .fault :=
  (sampling_rate_no_fault 1 (by decide)).1 envA

/-- C10: for every nonempty table file successfully processed by the
index-population procedure with a positive sampling rate, the record at
position 0 is inserted (0 is divisible by every positive rate), so after
processing, the file's first key has an index entry pointing into that
file. -/
theorem first_record_always_indexed {K V : Type} [DecidableEq K]
    (env : Env K V) (tables : Nat → List (TableRecord K V)) (rate path : Nat)
    (idx idx2 : SparseIndex K) (r : TableRecord K V)
    (rest : List (TableRecord K V)) (h : 1 ≤ rate)
    (hrec : tables path = r :: rest)
    (hpop : populate_index_from_path env tables rate path idx = .ok idx2) :
    ∃ off, SparseIndex.lookup idx2 r.key = some ⟨path, off⟩ := by
  unfold populate_index_from_path at hpop
  rcases ho : env.openResult path with e | u
  · rw [ho] at hpop
    simp at hpop
  · rw [ho] at hpop
    have hz : rate ≠ 0 := by omega
    rw [hrec] at hpop
    simp only [populateLoop, hz, if_false, Nat.zero_mod, if_true, ite_false,
      ite_true, eq_self_iff_true] at hpop
    exact populateLoop_preserves path rate r.key rest 1 _ idx2 hpop
      ⟨r.offset, by simp [SparseIndex.lookup_update]⟩

/-- Witness for C10 at a concrete file whose first record has key 1. -/
theorem first_record_always_indexed_w :
    ∃ off, SparseIndex.lookup
      ([(1, (⟨0, 0⟩ : TableAddress))] : SparseIndex Nat) 1 = some ⟨0, off⟩ :=
  first_record_always_indexed envA envA.records 2 0 [] [(1, ⟨0, 0⟩)]
    ⟨1, 10, 0⟩ [⟨3, 30, 4⟩] (by decide) rfl rfl

end DharmaDB
